import Mathlib

/-!
Shallow embedding of `src/engines/engine.py` from the OIMNetPlus repository
(`to_device`, `train_one_epoch`, `evaluate_performance`) and proofs of the
specification claims about it.

Modelling conventions:
* Tensors carry 1-D or 2-D rational data plus a device tag (`0` = CPU).
  Python floats (loss scalars) are modelled by an abstract type `F` with an
  `isfinite` predicate, since float arithmetic (overflow, NaN) is not
  determined by the summands.
* Python target dictionaries are association lists `List (String × PVal)`;
  a failed key lookup or a `.to` call on a non-tensor value models a Python
  exception (`Option`/error outcome).
* External collaborators (the model, `reduce_dict`, the evaluation scoring
  functions, the cache loader) are parameters of an environment record,
  exactly as the spec treats them: opaque callables.
* The side effects the claims talk about (backward pass, optimizer step,
  scaler update, warmup step, logger updates, file writes, `sys.exit`) are
  recorded as an event trace, in the order the Python code performs them.
  Console output of the metric logger itself is elided.
-/

namespace OIMNet

/-- Data payload of a tensor: 1-D or 2-D rational entries. -/
inductive TData where
  | d1 : List ℚ → TData
  | d2 : List (List ℚ) → TData
  deriving DecidableEq, Repr

/-- A tensor: data plus a device tag (`0` models the CPU). -/
structure Tens where
  dat : TData
  dev : Nat
  deriving DecidableEq, Repr

/-- `t.to(device)` : retag the tensor onto a device. -/
def Tens.to (t : Tens) (device : Nat) : Tens := { t with dev := device }

/-- `t.cpu()`. -/
def Tens.cpu (t : Tens) : Tens := t.to 0

/-- `t.cpu().numpy()` drops the device and exposes the data. -/
def Tens.numpy (t : Tens) : TData := t.dat

/-- `x.size(0)`: length of the leading dimension. -/
def TData.size0 : TData → Nat
  | .d1 xs => xs.length
  | .d2 xss => xss.length

/-- `torch.ones n` (created on the CPU). -/
def torchOnes (n : Nat) : Tens := ⟨.d1 (List.replicate n 1), 0⟩

/-- Rows of a data payload, viewing 1-D data as a single row. -/
def TData.rows : TData → List (List ℚ)
  | .d1 xs => [xs]
  | .d2 xss => xss

/-- `torch.cat ts` along dim 0 for a list of 2-D tensors; device of the
result is the device of the first input. -/
def torchCat (ts : List Tens) : Tens :=
  ⟨.d2 (ts.flatMap (fun t => t.dat.rows)), (ts.headD ⟨.d2 [], 0⟩).dev⟩

/-- `x.unsqueeze(1)` on 1-D data: each entry becomes a singleton row. -/
def TData.unsqueeze1 : TData → TData
  | .d1 xs => .d2 (xs.map fun x => [x])
  | .d2 xss => .d2 xss

/-- `torch.cat [a, b] (dim := 1)` on 2-D data: rows appended pointwise. -/
def catDim1 (a b : TData) : TData :=
  match a, b with
  | .d2 xs, .d2 ys => .d2 (List.zipWith (· ++ ·) xs ys)
  | _, _ => a

/-- `x.squeeze()` as used on a `(1, 4)` ground-truth box tensor. -/
def TData.squeeze : TData → TData
  | .d2 [r] => .d1 r
  | x => x

/-- Row 0 of 2-D data (`x[0]`); `none` models an IndexError. -/
def TData.row0 : TData → Option TData
  | .d2 (r :: _) => some (.d1 r)
  | _ => none

/-- Elementwise subtraction of equally shaped data. -/
def TData.sub : TData → TData → TData
  | .d1 xs, .d1 ys => .d1 (List.zipWith (· - ·) xs ys)
  | .d2 xs, .d2 ys => .d2 (List.zipWith (fun a b => List.zipWith (· - ·) a b) xs ys)
  | a, _ => a

/-- `x.sum()` over all entries. -/
def TData.total : TData → ℚ
  | .d1 xs => xs.sum
  | .d2 xss => (xss.map List.sum).sum

/-- A value stored in a Python target dictionary: a tensor or some other
opaque object. -/
inductive PVal where
  | tens : Tens → PVal
  | other : Nat → PVal
  deriving DecidableEq, Repr

/-- A target dictionary, as an association list keyed by strings. -/
abbrev Target := List (String × PVal)

/-- Dictionary lookup `t[k]` (first binding wins, as in a Python dict kept
without duplicate keys). -/
def dictGet : Target → String → Option PVal
  | [], _ => none
  | kv :: rest, k => if kv.1 = k then some kv.2 else dictGet rest k

/-- Dictionary update `t[k] = v` on an existing key. -/
def dictSet (t : Target) (k : String) (v : PVal) : Target :=
  t.map (fun kv => if kv.1 = k then (kv.1, v) else kv)

/-- `t[k] = t[k].to(device)`: `none` models the KeyError / AttributeError a
missing key or a non-tensor value would raise. -/
def dictKeyToDev (t : Target) (k : String) (device : Nat) : Option Target :=
  match dictGet t k with
  | some (.tens x) => some (dictSet t k (.tens (x.to device)))
  | _ => none

/-- One target of the `for t in targets` loop of `to_device`: move the
`"boxes"` and `"labels"` entries to the device. -/
def targetToDev (t : Target) (device : Nat) : Option Target := do
  let t ← dictKeyToDev t "boxes" device
  dictKeyToDev t "labels" device

/-- The `for t in targets` loop of `to_device`, target by target. -/
def targetsToDev : List Target → Nat → Option (List Target)
  | [], _ => some []
  | t :: ts, device => do
    let t' ← targetToDev t device
    let ts' ← targetsToDev ts device
    pure (t' :: ts')

/-- `to_device(images, targets, device)` from `engine.py`: images are mapped
to the device, each target has its `"boxes"` and `"labels"` moved in place. -/
def to_device (images : List Tens) (targets : List Target) (device : Nat) :
    Option (List Tens × List Target) := do
  let targets ← targetsToDev targets device
  pure (images.map (Tens.to · device), targets)

/-! ## Training loop -/

/-- The configuration fields `train_one_epoch` reads. -/
structure Cfg where
  CLIP_GRADIENTS : ℚ
  DISP_PERIOD : Nat
  deriving Repr

/-- External collaborators of `train_one_epoch`: the abstract float type `F`
with Python's `sum` arithmetic and `math.isfinite`, the model's training
forward pass, and the distributed `reduce_dict` helper. -/
structure TrainEnv (F : Type) where
  fzero : F
  fadd : F → F → F
  isfinite : F → Bool
  model : List Tens → List Target → List (String × F)
  reduce_dict : List (String × F) → List (String × F)

/-- `sum(v for v in d.values())`: Python `sum` starts from `0`. -/
def sumVals {F : Type} (env : TrainEnv F) (d : List (String × F)) : F :=
  (d.map Prod.snd).foldl env.fadd env.fzero

/-- The events (side effects) of one epoch of training, in program order. -/
inductive Ev (F : Type) where
  | writeHeader (epoch : Nat)
  | warmupCreate (iters : Int) (factor : ℚ)
  | toDevice
  | zeroGrad
  | forward (loss_dict : List (String × F))
  | finCheck (v : F)
  | printLoss (v : F)
  | printDict (d : List (String × F))
  | writeLoss (v : F)
  | writeDict (d : List (String × F))
  | exitProc (code : Nat)
  | backward (loss : F)
  | unscale
  | clipGrad (maxNorm : ℚ)
  | optStep
  | scalerUpdate
  | warmupStep
  | loggerUpdate (loss : F) (d : List (String × F))
  | loggerLr
  | tfb (key : String)
  deriving DecidableEq

/-- How an epoch (or one step of it) ends: normally, by `sys.exit`, or by an
uncaught Python exception. -/
inductive Outcome where
  | ok
  | exited (code : Nat)
  | err
  deriving DecidableEq, Repr

/-- The loss checked for finiteness: `sum(reduce_dict(loss_dict).values())`. -/
def checkedLoss {F : Type} (env : TrainEnv F) (images : List Tens)
    (targets : List Target) : F :=
  sumVals env (env.reduce_dict (env.model images targets))

/-- The loss that is scaled and backpropagated: `sum(loss_dict.values())`. -/
def backwardLoss {F : Type} (env : TrainEnv F) (images : List Tens)
    (targets : List Target) : F :=
  sumVals env (env.model images targets)

/-- The body of the `for i, (images, targets) in ...` loop of
`train_one_epoch`, as the list of events it performs plus how it ends. -/
def trainStep {F : Type} (env : TrainEnv F) (cfg : Cfg) (epoch : Nat)
    (device : Nat) (tfboard : Bool) (batch : List Tens × List Target) :
    List (Ev F) × Outcome :=
  match to_device batch.1 batch.2 device with
  | none => ([], .err)
  | some (images, targets) =>
    let loss_dict := env.model images targets
    let losses := sumVals env loss_dict
    let loss_dict_reduced := env.reduce_dict loss_dict
    let loss_value := sumVals env loss_dict_reduced
    if !env.isfinite loss_value then
      ([.toDevice, .zeroGrad, .forward loss_dict, .finCheck loss_value,
        .printLoss loss_value, .printDict loss_dict_reduced,
        .writeLoss loss_value, .writeDict loss_dict_reduced,
        .exitProc 1], .exited 1)
    else
      ([.toDevice, .zeroGrad, .forward loss_dict, .finCheck loss_value,
        .backward losses]
        ++ (if cfg.CLIP_GRADIENTS > 0 then
              [.unscale, .clipGrad cfg.CLIP_GRADIENTS] else [])
        ++ [.optStep, .scalerUpdate]
        ++ (if epoch = 0 then [.warmupStep] else [])
        ++ [.loggerUpdate loss_value loss_dict_reduced, .loggerLr]
        ++ (if tfboard then loss_dict_reduced.map (fun kv => .tfb kv.1) else []),
       .ok)

/-- The batch loop: subsequent batches run only if the previous step ended
normally (`sys.exit` and exceptions terminate the process). -/
def runBatches {F : Type} (env : TrainEnv F) (cfg : Cfg) (epoch : Nat)
    (device : Nat) (tfboard : Bool) :
    List (List Tens × List Target) → List (Ev F) × Outcome
  | [] => ([], .ok)
  | b :: bs =>
    match trainStep env cfg epoch device tfboard b with
    | (evs, .ok) =>
      let (evs2, o2) := runBatches env cfg epoch device tfboard bs
      (evs ++ evs2, o2)
    | (evs, o) => (evs, o)

/-- `train_one_epoch` from `engine.py`: header write, warmup-scheduler
creation in epoch 0 (`warmup_iters = len(data_loader) - 1`,
`warmup_factor = 1.0/1000`), then the batch loop. -/
def train_one_epoch {F : Type} (env : TrainEnv F) (cfg : Cfg) (epoch : Nat)
    (device : Nat) (tfboard : Bool)
    (data_loader : List (List Tens × List Target)) : List (Ev F) × Outcome :=
  let pre := [Ev.writeHeader epoch]
    ++ (if epoch = 0 then
          [Ev.warmupCreate ((data_loader.length : Int) - 1) (1 / 1000)]
        else [])
  let (evs, o) := runBatches env cfg epoch device tfboard data_loader
  (pre ++ evs, o)

/-! ## Evaluation driver -/

/-- A dataset object, identified opaquely; only its `name` is inspected. -/
structure Dataset where
  name : String
  uid : Nat
  deriving DecidableEq, Repr

/-- A data loader: its batches and its underlying dataset. -/
structure Loader where
  batches : List (List Tens × List Target)
  dataset : Dataset

/-- One output dictionary of the detection model in eval mode. -/
structure DetOut where
  boxes : Tens
  embeddings : Tens
  labels : Tens
  scores : Tens
  deriving DecidableEq, Repr

/-- The argument tuple passed to `eval_search_cuhk` / `eval_search_prw`. -/
structure SearchArgs where
  gallery_ds : Dataset
  query_ds : Dataset
  gallery_dets : List TData
  gallery_feats : List TData
  query_box_feats : List TData
  query_dets : List TData
  query_feats : List TData
  cbgm : Bool
  outsys_dir : String

/-- Contents of the evaluation cache file (the five saved entries). -/
structure EvalCache where
  gallery_dets : List TData
  gallery_feats : List TData
  query_dets : List TData
  query_feats : List TData
  query_box_feats : List TData

/-- External collaborators of `evaluate_performance`: the model in its three
call modes, `torch.load` on the cache file, and the two search scorers
(`eval_detection`'s return value is discarded by the caller, so only its
invocation is recorded, as an event). -/
structure EvalEnv (Ret : Type) where
  modelDet : List Tens → List DetOut
  modelEmb : List Tens → List Target → List Tens
  modelQuery : List Tens → List Target → List DetOut
  loadCache : String → EvalCache
  eval_search_cuhk : SearchArgs → Ret
  eval_search_prw : SearchArgs → Ret

/-- Events (side effects) of `evaluate_performance`, in program order. -/
inductive EEv where
  | load (path : String)
  | inferDet
  | inferGtEmb
  | inferQuery
  | inferBoxEmb
  | makeDir (path : String)
  | save (path : String) (keys : List String)
  | evalDet (thresh : ℚ) (dir : String)
  | evalSearch (dsName : String)
  deriving DecidableEq, Repr

/-- Whether an event is a model-inference event (as opposed to a file-system
or scoring event). -/
def isInfer : EEv → Bool
  | .inferDet | .inferGtEmb | .inferQuery | .inferBoxEmb => true
  | _ => false

/-- Uncaught Python exceptions of the evaluation path: the two `assert`
statements, and any other error (KeyError, IndexError, type errors). -/
inductive EErr where
  | assertGtBox
  | assertBatchSize
  | pyError
  deriving DecidableEq, Repr

/-- A computation that emits events and either returns or raises. -/
abbrev EM (α : Type) := List EEv × Except EErr α

/-- Sequencing for `EM`: events accumulate; an exception stops the run but
keeps the events already performed. -/
def emBind {α β : Type} (x : EM α) (f : α → EM β) : EM β :=
  match x with
  | (evs, .error e) => (evs, .error e)
  | (evs, .ok a) => let (evs2, r) := f a; (evs ++ evs2, r)

/-- `os.path.join` for the relative second components used here. -/
def pathJoin (a b : String) : String := a ++ "/" ++ b

/-- The keys of the dictionary saved to the evaluation cache, in order. -/
def cacheKeys : List String :=
  ["gallery_dets", "gallery_feats", "query_dets", "query_feats",
   "query_box_feats"]

/-- `targets[0]["boxes"]`; errors model IndexError / a non-tensor value. -/
def getBoxes (targets : List Target) : Except EErr Tens :=
  match targets with
  | [] => .error .pyError
  | t :: _ =>
    match dictGet t "boxes" with
    | some (.tens x) => .ok x
    | _ => .error .pyError

/-- The per-output collection step shared by the gallery and query loops:
`box_w_scores = torch.cat([output["boxes"], output["scores"].unsqueeze(1)], dim=1)`
appended (as numpy) to the dets, `output["embeddings"]` to the feats. -/
def collectDetsFeats (outputs : List DetOut) : List TData × List TData :=
  (outputs.map (fun o =>
      ((⟨catDim1 o.boxes.dat o.scores.dat.unsqueeze1, o.boxes.dev⟩ : Tens).cpu.numpy)),
   outputs.map (fun o => o.embeddings.cpu.numpy))

/-- The `outputs` computed for one gallery batch: the model's detections
when `use_gt` is false, otherwise the single synthesized dictionary built
from the first target's ground-truth boxes. -/
def outputsOfGallery {Ret : Type} (env : EvalEnv Ret) (device : Nat)
    (use_gt : Bool) (images : List Tens) (targets : List Target) :
    EM (List DetOut) :=
  if !use_gt then
    ([.inferDet], .ok (env.modelDet images))
  else
    match getBoxes targets with
    | .error e => ([], .error e)
    | .ok boxes =>
      let n_boxes := boxes.dat.size0
      let embeddings := env.modelEmb images targets
      ([.inferGtEmb], .ok
        [{ boxes := boxes
           embeddings := torchCat embeddings
           labels := (torchOnes n_boxes).to device
           scores := (torchOnes n_boxes).to device }])

/-- The gallery loop of `evaluate_performance`, accumulating
`gallery_dets` and `gallery_feats`. -/
def galleryLoop {Ret : Type} (env : EvalEnv Ret) (device : Nat)
    (use_gt : Bool) : List (List Tens × List Target) →
    EM (List TData × List TData)
  | [] => ([], .ok ([], []))
  | b :: bs =>
    match to_device b.1 b.2 device with
    | none => ([], .error .pyError)
    | some (images, targets) =>
      emBind (outputsOfGallery env device use_gt images targets) fun outputs =>
      let (dets, feats) := collectDetsFeats outputs
      emBind (galleryLoop env device use_gt bs) fun (dets2, feats2) =>
      ([], .ok (dets ++ dets2, feats ++ feats2))

/-- One batch of the query loop: run the model with
`query_img_as_gallery=True`, check the ground-truth-box assertion, then
collect dets and feats. -/
def queryBatch {Ret : Type} (env : EvalEnv Ret) (images : List Tens)
    (targets : List Target) : EM (List TData × List TData) :=
  match getBoxes targets, env.modelQuery images targets with
  | .error e, _ => ([.inferQuery], .error e)
  | .ok _, [] => ([.inferQuery], .error .pyError)
  | .ok boxes, o0 :: rest =>
    match o0.boxes.dat.row0 with
    | none => ([.inferQuery], .error .pyError)
    | some b0 =>
      if (boxes.dat.squeeze.sub b0).total ≤ 1 / 1000 then
        ([.inferQuery], .ok (collectDetsFeats (o0 :: rest)))
      else
        ([.inferQuery], .error .assertGtBox)

/-- The query loop of `evaluate_performance`, accumulating `query_dets` and
`query_feats`. -/
def queryLoop {Ret : Type} (env : EvalEnv Ret) (device : Nat) :
    List (List Tens × List Target) → EM (List TData × List TData)
  | [] => ([], .ok ([], []))
  | b :: bs =>
    match to_device b.1 b.2 device with
    | none => ([], .error .pyError)
    | some (images, targets) =>
      emBind (queryBatch env images targets) fun (dets, feats) =>
      emBind (queryLoop env device bs) fun (dets2, feats2) =>
      ([], .ok (dets ++ dets2, feats ++ feats2))

/-- One batch of the query-box feature loop: the model returns the
embeddings of the ground-truth boxes; the batch-size-1 assertion requires
exactly one embedding. -/
def boxFeatBatch {Ret : Type} (env : EvalEnv Ret) (images : List Tens)
    (targets : List Target) : EM TData :=
  match env.modelEmb images targets with
  | [e] => ([.inferBoxEmb], .ok e.cpu.numpy)
  | _ => ([.inferBoxEmb], .error .assertBatchSize)

/-- The query-box feature loop, accumulating `query_box_feats`. -/
def boxFeatLoop {Ret : Type} (env : EvalEnv Ret) (device : Nat) :
    List (List Tens × List Target) → EM (List TData)
  | [] => ([], .ok [])
  | b :: bs =>
    match to_device b.1 b.2 device with
    | none => ([], .error .pyError)
    | some (images, targets) =>
      emBind (boxFeatBatch env images targets) fun f =>
      emBind (boxFeatLoop env device bs) fun fs =>
      ([], .ok (f :: fs))

/-- The feature-computation branch of `evaluate_performance`
(`use_cache` false): the three loops, then `mkdir` and the cache save. -/
def computeFeats {Ret : Type} (env : EvalEnv Ret) (device : Nat)
    (use_gt : Bool) (gallery_loader query_loader : Loader)
    (outsys_dir : String) : EM EvalCache :=
  emBind (galleryLoop env device use_gt gallery_loader.batches)
    fun (gallery_dets, gallery_feats) =>
  emBind (queryLoop env device query_loader.batches)
    fun (query_dets, query_feats) =>
  emBind (boxFeatLoop env device query_loader.batches)
    fun query_box_feats =>
  let cache_dir := pathJoin outsys_dir "eval_cache"
  ([.makeDir cache_dir, .save (pathJoin cache_dir "eval_cache.pth") cacheKeys],
   .ok { gallery_dets, gallery_feats, query_dets, query_feats, query_box_feats })

/-- The `SearchArgs` value `evaluate_performance` passes to the selected
search scorer, given the five artifact lists `c`. -/
def searchArgsOf (gallery_loader query_loader : Loader) (use_cbgm : Bool)
    (outsys_dir : String) (c : EvalCache) : SearchArgs :=
  { gallery_ds := gallery_loader.dataset
    query_ds := query_loader.dataset
    gallery_dets := c.gallery_dets
    gallery_feats := c.gallery_feats
    query_box_feats := c.query_box_feats
    query_dets := c.query_dets
    query_feats := c.query_feats
    cbgm := use_cbgm
    outsys_dir := outsys_dir }

/-- `evaluate_performance` from `engine.py`: load or compute the five
artifact lists, optionally run `eval_detection` (threshold `0.01`), then
return the result of the dataset-selected search scorer. -/
def evaluate_performance {Ret : Type} (env : EvalEnv Ret)
    (gallery_loader query_loader : Loader) (device : Nat)
    (use_gt use_cache use_cbgm : Bool) (outsys_dir : String) : EM Ret :=
  emBind
    (if use_cache then
      let path := pathJoin outsys_dir "eval_cache/eval_cache.pth"
      ([EEv.load path], .ok (env.loadCache path))
    else
      computeFeats env device use_gt gallery_loader query_loader outsys_dir)
    fun c =>
  emBind (if !use_gt then ([EEv.evalDet (1 / 100) outsys_dir], .ok ())
          else ([], .ok ())) fun _ =>
  ([EEv.evalSearch gallery_loader.dataset.name],
   .ok (if gallery_loader.dataset.name = "CUHK-SYSU" then
          env.eval_search_cuhk (searchArgsOf gallery_loader query_loader use_cbgm outsys_dir c)
        else
          env.eval_search_prw (searchArgsOf gallery_loader query_loader use_cbgm outsys_dir c)))

/-! ## Concrete instances used to witness the theorems below -/

/-- A concrete ground-truth box tensor (one `(1, 4)` box). -/
def tBox : Tens := ⟨.d2 [[0, 0, 10, 10]], 0⟩

/-- A concrete label tensor. -/
def tLab : Tens := ⟨.d1 [1], 0⟩

/-- A concrete target dictionary with one extra non-tensor entry. -/
def tgt0 : Target := [("boxes", .tens tBox), ("labels", .tens tLab), ("extra", .other 7)]

/-- `tgt0` after `to_device` onto device `3`. -/
def tgt0d3 : Target :=
  [("boxes", .tens (tBox.to 3)), ("labels", .tens (tLab.to 3)), ("extra", .other 7)]

/-- A concrete image tensor. -/
def img0 : Tens := ⟨.d2 [[1, 2], [3, 4]], 0⟩

/-- A concrete one-image batch. -/
def batch0 : List Tens × List Target := ([img0], [tgt0])

/-- A configuration with gradient clipping enabled. -/
def cfg0 : Cfg := ⟨5, 10⟩

/-- A configuration with gradient clipping disabled. -/
def cfgNoClip : Cfg := ⟨0, 10⟩

/-- A training environment whose reduced loss is never finite. -/
def envInf : TrainEnv ℤ where
  fzero := 0
  fadd := (· + ·)
  isfinite := fun _ => false
  model := fun _ _ => [("loss_box", 2)]
  reduce_dict := fun d => d

/-- A training environment with finite losses whose `reduce_dict` changes
the values (as averaging over workers would), so the checked loss differs
from the backpropagated loss. -/
def envFin : TrainEnv ℤ where
  fzero := 0
  fadd := (· + ·)
  isfinite := fun _ => true
  model := fun _ _ => [("loss_box", 2)]
  reduce_dict := fun d => d.map (fun kv => (kv.1, kv.2 - 1))

/-- A concrete gallery dataset. -/
def dsG : Dataset := ⟨"CUHK-SYSU", 0⟩

/-- A concrete query dataset. -/
def dsQ : Dataset := ⟨"CUHK-SYSU", 1⟩

/-- An empty gallery loader. -/
def glEmpty : Loader := ⟨[], dsG⟩

/-- An empty query loader. -/
def qlEmpty : Loader := ⟨[], dsQ⟩

/-- A trivial evaluation environment. -/
def envEval : EvalEnv Nat where
  modelDet := fun _ => []
  modelEmb := fun _ _ => []
  modelQuery := fun _ _ => []
  loadCache := fun _ => ⟨[], [], [], [], []⟩
  eval_search_cuhk := fun _ => 1
  eval_search_prw := fun _ => 2

/-- A detection output whose first box is far from the ground-truth box of
`tgt0`. -/
def qbOut : DetOut :=
  ⟨⟨.d2 [[-1, -1, -1, -1]], 0⟩, ⟨.d2 [], 0⟩, ⟨.d1 [], 0⟩, ⟨.d1 [], 0⟩⟩

/-- An evaluation environment whose query detections do not start with the
ground-truth box, so the consistency assertion fails on `tgt0`. -/
def envQB : EvalEnv Nat where
  modelDet := fun _ => []
  modelEmb := fun _ _ => []
  modelQuery := fun _ _ => [qbOut]
  loadCache := fun _ => ⟨[], [], [], [], []⟩
  eval_search_cuhk := fun _ => 0
  eval_search_prw := fun _ => 0

/-! ## Theorems -/

/-- The exact trace of a step whose reduced loss fails the finiteness
check. -/
theorem trainStep_nonfinite {F : Type} (env : TrainEnv F) (cfg : Cfg)
    (epoch device : Nat) (tfboard : Bool) (b : List Tens × List Target)
    (images : List Tens) (targets : List Target)
    (hdev : to_device b.1 b.2 device = some (images, targets))
    (hfin : env.isfinite (checkedLoss env images targets) = false) :
    trainStep env cfg epoch device tfboard b =
      ([.toDevice, .zeroGrad, .forward (env.model images targets),
        .finCheck (checkedLoss env images targets),
        .printLoss (checkedLoss env images targets),
        .printDict (env.reduce_dict (env.model images targets)),
        .writeLoss (checkedLoss env images targets),
        .writeDict (env.reduce_dict (env.model images targets)),
        .exitProc 1], .exited 1) := by
  unfold trainStep
  rw [hdev]
  simp only [checkedLoss, sumVals] at hfin ⊢
  simp [hfin]

/-- The exact trace of a step whose reduced loss passes the finiteness
check. -/
theorem trainStep_finite {F : Type} (env : TrainEnv F) (cfg : Cfg)
    (epoch device : Nat) (tfboard : Bool) (b : List Tens × List Target)
    (images : List Tens) (targets : List Target)
    (hdev : to_device b.1 b.2 device = some (images, targets))
    (hfin : env.isfinite (checkedLoss env images targets) = true) :
    trainStep env cfg epoch device tfboard b =
      ([.toDevice, .zeroGrad, .forward (env.model images targets),
        .finCheck (checkedLoss env images targets),
        .backward (backwardLoss env images targets)]
        ++ (if cfg.CLIP_GRADIENTS > 0 then
              [.unscale, .clipGrad cfg.CLIP_GRADIENTS] else [])
        ++ [.optStep, .scalerUpdate]
        ++ (if epoch = 0 then [.warmupStep] else [])
        ++ [.loggerUpdate (checkedLoss env images targets)
              (env.reduce_dict (env.model images targets)), .loggerLr]
        ++ (if tfboard then
              (env.reduce_dict (env.model images targets)).map
                (fun kv => Ev.tfb kv.1)
            else []),
       .ok) := by
  unfold trainStep
  rw [hdev]
  simp only [checkedLoss, backwardLoss, sumVals] at hfin ⊢
  simp [hfin]

/-- C1: a batch whose reduced total loss is non-finite logs the loss value
and the reduced loss dictionary and exits the process with status 1; the
step performs no backward pass, no gradient unscaling or clipping, no
optimizer step, no scaler update, no warmup step and no metric-logger
update, and no later batch of the loop is processed. -/
theorem C1_nonfinite_loss_exits {F : Type} (env : TrainEnv F) (cfg : Cfg)
    (epoch device : Nat) (tfboard : Bool) (b : List Tens × List Target)
    (images : List Tens) (targets : List Target)
    (hdev : to_device b.1 b.2 device = some (images, targets))
    (hfin : env.isfinite (checkedLoss env images targets) = false) :
    trainStep env cfg epoch device tfboard b =
      ([.toDevice, .zeroGrad, .forward (env.model images targets),
        .finCheck (checkedLoss env images targets),
        .printLoss (checkedLoss env images targets),
        .printDict (env.reduce_dict (env.model images targets)),
        .writeLoss (checkedLoss env images targets),
        .writeDict (env.reduce_dict (env.model images targets)),
        .exitProc 1], .exited 1)
    ∧ (∀ l, Ev.backward l ∉ (trainStep env cfg epoch device tfboard b).1)
    ∧ Ev.unscale ∉ (trainStep env cfg epoch device tfboard b).1
    ∧ (∀ q, Ev.clipGrad q ∉ (trainStep env cfg epoch device tfboard b).1)
    ∧ Ev.optStep ∉ (trainStep env cfg epoch device tfboard b).1
    ∧ Ev.scalerUpdate ∉ (trainStep env cfg epoch device tfboard b).1
    ∧ Ev.warmupStep ∉ (trainStep env cfg epoch device tfboard b).1
    ∧ (∀ v d, Ev.loggerUpdate v d ∉ (trainStep env cfg epoch device tfboard b).1)
    ∧ (∀ bs, runBatches env cfg epoch device tfboard (b :: bs) =
        ((trainStep env cfg epoch device tfboard b).1, .exited 1)) := by
  have hstep := trainStep_nonfinite env cfg epoch device tfboard b images targets hdev hfin
  refine ⟨hstep, ?_, ?_, ?_, ?_, ?_, ?_, ?_, ?_⟩ <;> intros <;>
    simp [runBatches, hstep]

/-- Witness for C1 at a concrete environment and batch. -/
theorem C1_witness :
    trainStep envInf cfg0 1 0 false batch0 =
      ([.toDevice, .zeroGrad, .forward (envInf.model [img0] [tgt0]),
        .finCheck (checkedLoss envInf [img0] [tgt0]),
        .printLoss (checkedLoss envInf [img0] [tgt0]),
        .printDict (envInf.reduce_dict (envInf.model [img0] [tgt0])),
        .writeLoss (checkedLoss envInf [img0] [tgt0]),
        .writeDict (envInf.reduce_dict (envInf.model [img0] [tgt0])),
        .exitProc 1], .exited 1) :=
  (C1_nonfinite_loss_exits envInf cfg0 1 0 false batch0 [img0] [tgt0]
    (by decide) (by decide)).1

/-- C2: a batch whose reduced loss is finite performs, in order: device
transfer, gradient zeroing, the forward pass, the loss reduction and
finiteness check, the scaled backward pass, optional gradient clipping, the
optimizer step through the scaler, the scaler update, and the metric-logger
updates with the reduced losses and the learning rate. -/
theorem C2_step_order {F : Type} (env : TrainEnv F) (cfg : Cfg)
    (epoch device : Nat) (tfboard : Bool) (b : List Tens × List Target)
    (images : List Tens) (targets : List Target)
    (hdev : to_device b.1 b.2 device = some (images, targets))
    (hfin : env.isfinite (checkedLoss env images targets) = true) :
    trainStep env cfg epoch device tfboard b =
      ([.toDevice, .zeroGrad, .forward (env.model images targets),
        .finCheck (checkedLoss env images targets),
        .backward (backwardLoss env images targets)]
        ++ (if cfg.CLIP_GRADIENTS > 0 then
              [.unscale, .clipGrad cfg.CLIP_GRADIENTS] else [])
        ++ [.optStep, .scalerUpdate]
        ++ (if epoch = 0 then [.warmupStep] else [])
        ++ [.loggerUpdate (checkedLoss env images targets)
              (env.reduce_dict (env.model images targets)), .loggerLr]
        ++ (if tfboard then
              (env.reduce_dict (env.model images targets)).map
                (fun kv => Ev.tfb kv.1)
            else []),
       .ok) :=
  trainStep_finite env cfg epoch device tfboard b images targets hdev hfin

/-- Witness for C2 at a concrete environment and batch. -/
theorem C2_witness :
    trainStep envFin cfg0 2 0 false batch0 =
      ([.toDevice, .zeroGrad, .forward (envFin.model [img0] [tgt0]),
        .finCheck (checkedLoss envFin [img0] [tgt0]),
        .backward (backwardLoss envFin [img0] [tgt0]),
        .unscale, .clipGrad cfg0.CLIP_GRADIENTS, .optStep, .scalerUpdate,
        .loggerUpdate (checkedLoss envFin [img0] [tgt0])
          (envFin.reduce_dict (envFin.model [img0] [tgt0])), .loggerLr],
       .ok) := by
  have h := C2_step_order envFin cfg0 2 0 false batch0 [img0] [tgt0]
    (by decide) (by decide)
  rw [h]
  decide

/-- C5: the value checked for finiteness is the sum of the reduced loss
dictionary's values while the value backpropagated is the sum of the
original loss dictionary's values; at `envFin` these two sums are distinct. -/
theorem C5_checked_vs_backward {F : Type} (env : TrainEnv F) (cfg : Cfg)
    (epoch device : Nat) (tfboard : Bool) (b : List Tens × List Target)
    (images : List Tens) (targets : List Target)
    (hdev : to_device b.1 b.2 device = some (images, targets))
    (hfin : env.isfinite (checkedLoss env images targets) = true) :
    ((trainStep env cfg epoch device tfboard b).1.get? 3 =
        some (.finCheck (sumVals env (env.reduce_dict (env.model images targets))))
      ∧ (trainStep env cfg epoch device tfboard b).1.get? 4 =
        some (.backward (sumVals env (env.model images targets))))
    ∧ checkedLoss envFin [img0] [tgt0] ≠ backwardLoss envFin [img0] [tgt0] := by
  have h := trainStep_finite env cfg epoch device tfboard b images targets hdev hfin
  refine ⟨⟨?_, ?_⟩, by decide⟩ <;> rw [h] <;> rfl

/-- Witness for C5 at a concrete environment and batch. -/
theorem C5_witness :
    (trainStep envFin cfg0 2 0 false batch0).1.get? 4 =
      some (.backward (sumVals envFin (envFin.model [img0] [tgt0]))) :=
  (C5_checked_vs_backward envFin cfg0 2 0 false batch0 [img0] [tgt0]
    (by decide) (by decide)).1.2

/-- C7: in a step that reaches the backward pass, gradient clipping happens
if and only if `cfg.SOLVER.CLIP_GRADIENTS > 0`; when it does, the gradients
are unscaled, then clipped to max norm `cfg.SOLVER.CLIP_GRADIENTS`, and only
then is the optimizer stepped. -/
theorem C7_clip_iff_positive {F : Type} (env : TrainEnv F) (cfg : Cfg)
    (epoch device : Nat) (tfboard : Bool) (b : List Tens × List Target)
    (images : List Tens) (targets : List Target)
    (hdev : to_device b.1 b.2 device = some (images, targets))
    (hfin : env.isfinite (checkedLoss env images targets) = true) :
    (cfg.CLIP_GRADIENTS > 0 →
      (trainStep env cfg epoch device tfboard b).1.get? 5 = some .unscale
      ∧ (trainStep env cfg epoch device tfboard b).1.get? 6 =
          some (.clipGrad cfg.CLIP_GRADIENTS)
      ∧ (trainStep env cfg epoch device tfboard b).1.get? 7 = some .optStep)
    ∧ (¬ cfg.CLIP_GRADIENTS > 0 →
      Ev.unscale ∉ (trainStep env cfg epoch device tfboard b).1
      ∧ (∀ q, Ev.clipGrad q ∉ (trainStep env cfg epoch device tfboard b).1)
      ∧ (trainStep env cfg epoch device tfboard b).1.get? 5 = some Ev.optStep) := by
  have h := trainStep_finite env cfg epoch device tfboard b images targets hdev hfin
  constructor
  · intro hpos
    rw [h]
    simp [hpos]
  · intro hnpos
    rw [h]
    refine ⟨?_, ?_, ?_⟩
    · simp [if_neg hnpos]
    · intro q
      simp [if_neg hnpos]
    · simp [if_neg hnpos]

/-- Witness for C7 at a concrete environment with clipping enabled. -/
theorem C7_witness :
    (trainStep envFin cfg0 2 0 false batch0).1.get? 6 =
      some (.clipGrad cfg0.CLIP_GRADIENTS) :=
  ((C7_clip_iff_positive envFin cfg0 2 0 false batch0 [img0] [tgt0]
    (by decide) (by decide)).1 (by decide)).2.1

/-- Outside epoch 0, a training step emits no warmup event. -/
theorem warmup_not_in_step {F : Type} (env : TrainEnv F) (cfg : Cfg)
    (epoch device : Nat) (tfboard : Bool) (b : List Tens × List Target)
    (h : epoch ≠ 0) :
    (∀ it f, Ev.warmupCreate it f ∉ (trainStep env cfg epoch device tfboard b).1)
    ∧ Ev.warmupStep ∉ (trainStep env cfg epoch device tfboard b).1 := by
  unfold trainStep
  rcases hdev : to_device b.1 b.2 device with _ | ⟨images, targets⟩
  · simp
  · by_cases hfin :
      env.isfinite (sumVals env (env.reduce_dict (env.model images targets))) = true
    · constructor
      · intro it f
        simp only [hfin]
        split_ifs with h1 h2 h3 <;> simp [h, List.mem_map]
      · simp only [hfin]
        split_ifs with h1 h2 h3 <;> simp [h, List.mem_map]
    · rw [Bool.not_eq_true] at hfin
      constructor
      · intro it f
        simp [hfin]
      · simp [hfin]

/-- Outside epoch 0, the whole batch loop emits no warmup event. -/
theorem warmup_not_in_runBatches {F : Type} (env : TrainEnv F) (cfg : Cfg)
    (epoch device : Nat) (tfboard : Bool) (h : epoch ≠ 0) :
    ∀ bs, (∀ it f, Ev.warmupCreate it f ∉ (runBatches env cfg epoch device tfboard bs).1)
      ∧ Ev.warmupStep ∉ (runBatches env cfg epoch device tfboard bs).1 := by
  intro bs
  induction bs with
  | nil => simp [runBatches]
  | cons b bs ih =>
    have hb := warmup_not_in_step env cfg epoch device tfboard b h
    unfold runBatches
    rcases hstep : trainStep env cfg epoch device tfboard b with ⟨evs, o⟩
    rw [hstep] at hb
    cases o with
    | ok =>
      constructor
      · intro it f
        simp only [List.mem_append]
        push_neg
        exact ⟨hb.1 it f, (ih.1) it f⟩
      · simp only [List.mem_append]
        push_neg
        exact ⟨hb.2, ih.2⟩
    | exited code => exact hb
    | err => exact hb

/-- C6: in epoch 0 the warmup scheduler is created with warmup length
`len(data_loader) - 1` and factor `1/1000`, and each completed step steps it
exactly once, right after the optimizer step and scaler update; in any other
epoch no warmup scheduler is created and no warmup step happens. -/
theorem C6_warmup_iff_epoch0 {F : Type} [DecidableEq F] (env : TrainEnv F)
    (cfg : Cfg) (epoch device : Nat) (tfboard : Bool)
    (batches : List (List Tens × List Target)) (b : List Tens × List Target)
    (images : List Tens) (targets : List Target)
    (hdev : to_device b.1 b.2 device = some (images, targets))
    (hfin : env.isfinite (checkedLoss env images targets) = true) :
    (train_one_epoch env cfg 0 device tfboard batches).1.get? 1 =
        some (Ev.warmupCreate ((batches.length : Int) - 1) (1 / 1000))
    ∧ (epoch ≠ 0 →
        (∀ it f, Ev.warmupCreate it f ∉
            (train_one_epoch env cfg epoch device tfboard batches).1)
        ∧ Ev.warmupStep ∉ (train_one_epoch env cfg epoch device tfboard batches).1)
    ∧ ((trainStep env cfg 0 device tfboard b).1.count Ev.warmupStep = 1
        ∧ (trainStep env cfg 0 device tfboard b).1.get?
            (if cfg.CLIP_GRADIENTS > 0 then 7 else 5) = some Ev.optStep
        ∧ (trainStep env cfg 0 device tfboard b).1.get?
            (if cfg.CLIP_GRADIENTS > 0 then 8 else 6) = some Ev.scalerUpdate
        ∧ (trainStep env cfg 0 device tfboard b).1.get?
            (if cfg.CLIP_GRADIENTS > 0 then 9 else 7) = some Ev.warmupStep) := by
  have hstep := trainStep_finite env cfg 0 device tfboard b images targets hdev hfin
  refine ⟨?_, ?_, ?_, ?_, ?_, ?_⟩
  · unfold train_one_epoch
    rcases hrb : runBatches env cfg 0 device tfboard batches with ⟨evs, o⟩
    simp
  · intro hep
    have hrb := warmup_not_in_runBatches env cfg epoch device tfboard hep batches
    unfold train_one_epoch
    rcases hr : runBatches env cfg epoch device tfboard batches with ⟨evs, o⟩
    rw [hr] at hrb
    constructor
    · intro it f
      simp [hep]
      exact hrb.1 it f
    · simp [hep]
      exact hrb.2
  · rw [hstep]
    by_cases h1 : cfg.CLIP_GRADIENTS > 0 <;> by_cases h2 : tfboard = true <;>
      simp [h1, h2, List.count_append, List.count_cons, List.count_eq_zero,
        List.mem_map]
  · rw [hstep]
    by_cases h1 : cfg.CLIP_GRADIENTS > 0 <;>
      simp [h1, List.get?_cons_zero, List.get?_cons_succ]
  · rw [hstep]
    by_cases h1 : cfg.CLIP_GRADIENTS > 0 <;>
      simp [h1, List.get?_cons_zero, List.get?_cons_succ]
  · rw [hstep]
    by_cases h1 : cfg.CLIP_GRADIENTS > 0 <;>
      simp [h1, List.get?_cons_zero, List.get?_cons_succ]

/-- Witness for C6 at a concrete environment, batch and epochs 0 and 1. -/
theorem C6_witness :
    (train_one_epoch envFin cfg0 0 0 false [batch0]).1.get? 1 =
      some (Ev.warmupCreate ((([batch0].length : Nat) : Int) - 1) (1 / 1000))
    ∧ (trainStep envFin cfg0 0 0 false batch0).1.count Ev.warmupStep = 1 := by
  have h := C6_warmup_iff_epoch0 envFin cfg0 1 0 false [batch0] batch0 [img0] [tgt0]
    (by decide) (by decide)
  exact ⟨h.1, h.2.2.1⟩

/-- Updating an existing key makes lookup of that key return the new
value. -/
theorem dictGet_dictSet_self (t : Target) (k : String) (v v0 : PVal)
    (h : dictGet t k = some v0) : dictGet (dictSet t k v) k = some v := by
  induction t with
  | nil => simp [dictGet] at h
  | cons kv rest ih =>
    by_cases hk : kv.1 = k
    · simp [dictGet, dictSet, hk]
    · simp only [dictGet, dictSet, List.map_cons, if_neg hk] at h ⊢
      exact ih h

/-- Updating one key leaves lookups of every other key unchanged. -/
theorem dictGet_dictSet_ne (t : Target) (k k' : String) (v : PVal)
    (h : k' ≠ k) : dictGet (dictSet t k v) k' = dictGet t k' := by
  induction t with
  | nil => simp [dictGet, dictSet]
  | cons kv rest ih =>
    by_cases hk : kv.1 = k
    · have hk' : ¬ kv.1 = k' := by rw [hk]; exact fun hh => h hh.symm
      simp only [dictGet, dictSet, List.map_cons, if_pos hk]
      rw [if_neg hk', if_neg hk']
      exact ih
    · simp only [dictGet, dictSet, List.map_cons, if_neg hk]
      by_cases hk2 : kv.1 = k'
      · rw [if_pos hk2, if_pos hk2]
      · rw [if_neg hk2, if_neg hk2]
        exact ih

/-- What one iteration of the `to_device` target loop does to a target
dictionary: `"boxes"` and `"labels"` are replaced by device-resident copies
and every other key is untouched. -/
theorem targetToDev_spec (t t' : Target) (device : Nat)
    (h : targetToDev t device = some t') :
    ∃ bx lb : Tens,
      dictGet t "boxes" = some (.tens bx)
      ∧ dictGet t "labels" = some (.tens lb)
      ∧ dictGet t' "boxes" = some (.tens (bx.to device))
      ∧ dictGet t' "labels" = some (.tens (lb.to device))
      ∧ ∀ k, k ≠ "boxes" → k ≠ "labels" → dictGet t' k = dictGet t k := by
  unfold targetToDev dictKeyToDev at h
  rcases hb : dictGet t "boxes" with _ | pv
  · rw [hb] at h; simp at h
  rcases pv with bx | o
  · rw [hb] at h
    simp only [Option.bind_eq_bind, Option.some_bind] at h
    have hlab : dictGet (dictSet t "boxes" (.tens (bx.to device))) "labels" =
        dictGet t "labels" := dictGet_dictSet_ne t "boxes" "labels" _ (by decide)
    rcases hl : dictGet t "labels" with _ | pv2
    · rw [hlab, hl] at h; simp at h
    rcases pv2 with lb | o2
    · rw [hlab, hl] at h
      simp only [Option.some.injEq] at h
      subst h
      refine ⟨bx, lb, rfl, rfl, ?_, ?_, ?_⟩
      · rw [dictGet_dictSet_ne _ "labels" "boxes" _ (by decide)]
        exact dictGet_dictSet_self t "boxes" _ _ hb
      · exact dictGet_dictSet_self _ "labels" _ _ (hlab.trans hl)
      · intro k hk1 hk2
        rw [dictGet_dictSet_ne _ "labels" k _ hk2,
          dictGet_dictSet_ne _ "boxes" k _ hk1]
    · rw [hlab, hl] at h; simp at h
  · rw [hb] at h; simp at h

/-- The target loop preserves the number and order of targets, relating each
output target to its input by `targetToDev`. -/
theorem targetsToDev_spec (device : Nat) :
    ∀ (targets targets' : List Target),
      targetsToDev targets device = some targets' →
      targets'.length = targets.length
      ∧ ∀ (i : Nat) (t : Target), targets[i]? = some t →
          ∃ t', targets'[i]? = some t' ∧ targetToDev t device = some t' := by
  intro targets
  induction targets with
  | nil =>
    intro targets' h
    simp only [targetsToDev] at h
    cases h
    simp
  | cons t ts ih =>
    intro targets' h
    simp only [targetsToDev, Option.bind_eq_bind, Option.bind_eq_some,
      Option.pure_def, Option.some.injEq] at h
    obtain ⟨t', ht, ts', hts, rfl⟩ := h
    obtain ⟨hlen, hidx⟩ := ih ts' hts
    constructor
    · simp [hlen]
    · intro i u hu
      cases i with
      | zero =>
        simp only [List.getElem?_cons_zero, Option.some.injEq] at hu
        subst hu
        exact ⟨t', by simp, ht⟩
      | succ j =>
        simp only [List.getElem?_cons_succ] at hu ⊢
        exact hidx j u hu

/-- C9: `to_device` returns the input images moved to the device (same
number, same order) and rewrites each target dictionary exactly at its
`"boxes"` and `"labels"` keys, replacing them with device-resident copies;
every other key of every target, and the number and order of targets, are
unchanged. -/
theorem C9_to_device_frame (images : List Tens) (targets : List Target)
    (device : Nat) (images' : List Tens) (targets' : List Target)
    (h : to_device images targets device = some (images', targets')) :
    images' = images.map (Tens.to · device)
    ∧ targets'.length = targets.length
    ∧ ∀ (i : Nat) (t : Target), targets[i]? = some t →
        ∃ t', targets'[i]? = some t'
          ∧ (∃ bx lb : Tens,
              dictGet t "boxes" = some (.tens bx)
              ∧ dictGet t "labels" = some (.tens lb)
              ∧ dictGet t' "boxes" = some (.tens (bx.to device))
              ∧ dictGet t' "labels" = some (.tens (lb.to device)))
          ∧ ∀ k, k ≠ "boxes" → k ≠ "labels" → dictGet t' k = dictGet t k := by
  unfold to_device at h
  simp only [Option.bind_eq_bind, Option.bind_eq_some, Option.pure_def,
    Option.some.injEq, Prod.mk.injEq] at h
  obtain ⟨ts', hts, himg, htgt⟩ := h
  obtain ⟨hlen, hidx⟩ := targetsToDev_spec device targets ts' hts
  subst himg htgt
  refine ⟨rfl, hlen, ?_⟩
  intro i t ht
  obtain ⟨t', ht', hdev⟩ := hidx i t ht
  obtain ⟨bx, lb, h1, h2, h3, h4, h5⟩ := targetToDev_spec t t' device hdev
  exact ⟨t', ht', ⟨bx, lb, h1, h2, h3, h4⟩, h5⟩

/-- Witness for C9 at a concrete image, target and device. -/
theorem C9_witness :
    to_device [img0] [tgt0] 3 = some ([img0.to 3], [tgt0d3])
    ∧ [img0.to 3] = [img0].map (Tens.to · 3)
    ∧ [tgt0d3].length = [tgt0].length := by
  have h : to_device [img0] [tgt0] 3 = some ([img0.to 3], [tgt0d3]) := by decide
  have hc := C9_to_device_frame [img0] [tgt0] 3 [img0.to 3] [tgt0d3] h
  exact ⟨h, hc.1, hc.2.1⟩

/-- The gallery per-batch output computation emits only inference events. -/
theorem outputsOfGallery_infer {Ret : Type} (env : EvalEnv Ret) (device : Nat)
    (use_gt : Bool) (images : List Tens) (targets : List Target) :
    ∀ e ∈ (outputsOfGallery env device use_gt images targets).1,
      isInfer e = true := by
  unfold outputsOfGallery
  cases use_gt with
  | false => simp [isInfer]
  | true =>
    rcases hb : getBoxes targets with e | boxes <;> simp [isInfer]

/-- The gallery loop emits only inference events. -/
theorem galleryLoop_infer {Ret : Type} (env : EvalEnv Ret) (device : Nat)
    (use_gt : Bool) :
    ∀ bs, ∀ e ∈ (galleryLoop env device use_gt bs).1, isInfer e = true := by
  intro bs
  induction bs with
  | nil => simp [galleryLoop]
  | cons b bs ih =>
    unfold galleryLoop
    rcases hdev : to_device b.1 b.2 device with _ | ⟨images, targets⟩
    · simp [hdev]
    · have ho := outputsOfGallery_infer env device use_gt images targets
      rcases hout : outputsOfGallery env device use_gt images targets with ⟨evs, r⟩
      rw [hout] at ho
      rcases hrec : galleryLoop env device use_gt bs with ⟨evs2, r2⟩
      rw [hrec] at ih
      cases r with
      | error e =>
        simp only [hdev, hout, emBind]
        exact ho
      | ok outputs =>
        cases r2 with
        | error e2 =>
          simp only [hdev, hout, hrec, emBind]
          intro e' he'
          rcases List.mem_append.mp he' with h1 | h2
          · exact ho e' h1
          · exact ih e' h2
        | ok p =>
          simp only [hdev, hout, hrec, emBind]
          intro e' he'
          simp only [List.append_nil] at he'
          rcases List.mem_append.mp he' with h1 | h2
          · exact ho e' h1
          · exact ih e' h2

/-- The query per-batch computation always emits exactly the query-inference
event. -/
theorem queryBatch_events {Ret : Type} (env : EvalEnv Ret) (images : List Tens)
    (targets : List Target) :
    (queryBatch env images targets).1 = [EEv.inferQuery] := by
  rcases hb : getBoxes targets with e | boxes
  · simp [queryBatch, hb]
  · rcases hm : env.modelQuery images targets with _ | ⟨o0, rest⟩
    · simp [queryBatch, hb, hm]
    · rcases hr : o0.boxes.dat.row0 with _ | b0
      · simp [queryBatch, hb, hm, hr]
      · simp only [queryBatch, hb, hm, hr]
        split_ifs <;> rfl

/-- The query-box per-batch computation always emits exactly the box-feature
inference event. -/
theorem boxFeatBatch_events {Ret : Type} (env : EvalEnv Ret)
    (images : List Tens) (targets : List Target) :
    (boxFeatBatch env images targets).1 = [EEv.inferBoxEmb] := by
  unfold boxFeatBatch
  rcases env.modelEmb images targets with _ | ⟨e, _ | ⟨e2, rest⟩⟩ <;> rfl

/-- The query loop emits only inference events. -/
theorem queryLoop_infer {Ret : Type} (env : EvalEnv Ret) (device : Nat) :
    ∀ bs, ∀ e ∈ (queryLoop env device bs).1, isInfer e = true := by
  intro bs
  induction bs with
  | nil => simp [queryLoop]
  | cons b bs ih =>
    unfold queryLoop
    rcases hdev : to_device b.1 b.2 device with _ | ⟨images, targets⟩
    · simp [hdev]
    · have hq := queryBatch_events env images targets
      rcases hout : queryBatch env images targets with ⟨evs, r⟩
      rw [hout] at hq
      simp only at hq
      subst hq
      rcases hrec : queryLoop env device bs with ⟨evs2, r2⟩
      rw [hrec] at ih
      cases r with
      | error e => simp [hdev, hout, emBind, isInfer]
      | ok p =>
        cases r2 with
        | error e2 =>
          simp only [hdev, hout, hrec, emBind]
          intro e' he'
          rcases List.mem_append.mp he' with h1 | h2
          · rcases List.mem_singleton.mp h1 with rfl; rfl
          · exact ih e' h2
        | ok p2 =>
          simp only [hdev, hout, hrec, emBind]
          intro e' he'
          simp only [List.append_nil] at he'
          rcases List.mem_append.mp he' with h1 | h2
          · rcases List.mem_singleton.mp h1 with rfl; rfl
          · exact ih e' h2

/-- The query-box feature loop emits only inference events. -/
theorem boxFeatLoop_infer {Ret : Type} (env : EvalEnv Ret) (device : Nat) :
    ∀ bs, ∀ e ∈ (boxFeatLoop env device bs).1, isInfer e = true := by
  intro bs
  induction bs with
  | nil => simp [boxFeatLoop]
  | cons b bs ih =>
    unfold boxFeatLoop
    rcases hdev : to_device b.1 b.2 device with _ | ⟨images, targets⟩
    · simp [hdev]
    · have hq := boxFeatBatch_events env images targets
      rcases hout : boxFeatBatch env images targets with ⟨evs, r⟩
      rw [hout] at hq
      simp only at hq
      subst hq
      rcases hrec : boxFeatLoop env device bs with ⟨evs2, r2⟩
      rw [hrec] at ih
      cases r with
      | error e => simp [hdev, hout, emBind, isInfer]
      | ok p =>
        cases r2 with
        | error e2 =>
          simp only [hdev, hout, hrec, emBind]
          intro e' he'
          rcases List.mem_append.mp he' with h1 | h2
          · rcases List.mem_singleton.mp h1 with rfl; rfl
          · exact ih e' h2
        | ok p2 =>
          simp only [hdev, hout, hrec, emBind]
          intro e' he'
          simp only [List.append_nil] at he'
          rcases List.mem_append.mp he' with h1 | h2
          · rcases List.mem_singleton.mp h1 with rfl; rfl
          · exact ih e' h2

/-- Event structure of the feature-computation branch: its trace is a block
of inference events, followed (exactly when it succeeds) by the `mkdir` and
the single cache save. -/
theorem computeFeats_spec {Ret : Type} (env : EvalEnv Ret) (device : Nat)
    (use_gt : Bool) (gl ql : Loader) (dir : String) :
    ∃ L, (∀ e ∈ L, isInfer e = true)
      ∧ ((∃ c, (computeFeats env device use_gt gl ql dir).2 = .ok c) →
          (computeFeats env device use_gt gl ql dir).1 =
            L ++ [.makeDir (pathJoin dir "eval_cache"),
              .save (pathJoin (pathJoin dir "eval_cache") "eval_cache.pth") cacheKeys])
      ∧ ((∃ e, (computeFeats env device use_gt gl ql dir).2 = .error e) →
          (computeFeats env device use_gt gl ql dir).1 = L) := by
  unfold computeFeats
  have hgi := galleryLoop_infer env device use_gt gl.batches
  rcases hg : galleryLoop env device use_gt gl.batches with ⟨ge, gr⟩
  rw [hg] at hgi
  cases gr with
  | error e =>
    refine ⟨ge, hgi, ?_, ?_⟩
    · rintro ⟨c, hc⟩
      simp [emBind] at hc
    · intro _
      simp [emBind]
  | ok gp =>
    obtain ⟨gallery_dets, gallery_feats⟩ := gp
    have hqi := queryLoop_infer env device ql.batches
    rcases hq : queryLoop env device ql.batches with ⟨qe, qr⟩
    rw [hq] at hqi
    cases qr with
    | error e =>
      refine ⟨ge ++ qe, ?_, ?_, ?_⟩
      · intro e' he'
        rcases List.mem_append.mp he' with h1 | h2
        · exact hgi e' h1
        · exact hqi e' h2
      · rintro ⟨c, hc⟩
        simp [emBind] at hc
      · intro _
        simp [emBind]
    | ok qp =>
      obtain ⟨query_dets, query_feats⟩ := qp
      have hbi := boxFeatLoop_infer env device ql.batches
      rcases hbf : boxFeatLoop env device ql.batches with ⟨be, br⟩
      rw [hbf] at hbi
      cases br with
      | error e =>
        refine ⟨ge ++ (qe ++ be), ?_, ?_, ?_⟩
        · intro e' he'
          rcases List.mem_append.mp he' with h1 | h2
          · exact hgi e' h1
          · rcases List.mem_append.mp h2 with h3 | h4
            · exact hqi e' h3
            · exact hbi e' h4
        · rintro ⟨c, hc⟩
          simp [emBind] at hc
        · intro _
          simp [emBind]
      | ok query_box_feats =>
        refine ⟨ge ++ (qe ++ be), ?_, ?_, ?_⟩
        · intro e' he'
          rcases List.mem_append.mp he' with h1 | h2
          · exact hgi e' h1
          · rcases List.mem_append.mp h2 with h3 | h4
            · exact hqi e' h3
            · exact hbi e' h4
        · intro _
          simp [emBind]
        · rintro ⟨e, hc⟩
          simp [emBind] at hc

/-- Shape of `evaluate_performance` with `use_cache = True`. -/
theorem evaluate_cache_eq {Ret : Type} (env : EvalEnv Ret) (gl ql : Loader)
    (device : Nat) (use_gt use_cbgm : Bool) (dir : String) :
    evaluate_performance env gl ql device use_gt true use_cbgm dir =
      ([EEv.load (pathJoin dir "eval_cache/eval_cache.pth")]
        ++ (if use_gt then [] else [EEv.evalDet (1 / 100) dir])
        ++ [EEv.evalSearch gl.dataset.name],
       .ok (if gl.dataset.name = "CUHK-SYSU" then
              env.eval_search_cuhk (searchArgsOf gl ql use_cbgm dir
                (env.loadCache (pathJoin dir "eval_cache/eval_cache.pth")))
            else env.eval_search_prw (searchArgsOf gl ql use_cbgm dir
                (env.loadCache (pathJoin dir "eval_cache/eval_cache.pth"))))) := by
  cases use_gt <;> simp [evaluate_performance, emBind]

/-- Shape of `evaluate_performance` with `use_cache = False` when the
feature computation succeeds. -/
theorem evaluate_compute_ok {Ret : Type} (env : EvalEnv Ret) (gl ql : Loader)
    (device : Nat) (use_gt use_cbgm : Bool) (dir : String) (evs1 : List EEv)
    (c : EvalCache)
    (hc : computeFeats env device use_gt gl ql dir = (evs1, .ok c)) :
    evaluate_performance env gl ql device use_gt false use_cbgm dir =
      (evs1 ++ (if use_gt then [] else [EEv.evalDet (1 / 100) dir])
        ++ [EEv.evalSearch gl.dataset.name],
       .ok (if gl.dataset.name = "CUHK-SYSU" then
              env.eval_search_cuhk (searchArgsOf gl ql use_cbgm dir c)
            else env.eval_search_prw (searchArgsOf gl ql use_cbgm dir c))) := by
  cases use_gt <;> simp [evaluate_performance, emBind, hc]

/-- Shape of `evaluate_performance` with `use_cache = False` when the
feature computation raises. -/
theorem evaluate_compute_err {Ret : Type} (env : EvalEnv Ret) (gl ql : Loader)
    (device : Nat) (use_gt use_cbgm : Bool) (dir : String) (evs1 : List EEv)
    (e : EErr)
    (hc : computeFeats env device use_gt gl ql dir = (evs1, .error e)) :
    evaluate_performance env gl ql device use_gt false use_cbgm dir =
      (evs1, .error e) := by
  simp [evaluate_performance, emBind, hc]

/-- C3: with `use_cache` false, a successful evaluation writes the computed
artifacts exactly once, to `outsys_dir/eval_cache/eval_cache.pth`, as a
dictionary with exactly the five documented keys, and loads nothing; with
`use_cache` true, the five artifacts come from loading that same file and
the run performs no inference and no cache write (its full trace is the
load followed only by scoring events). -/
theorem C3_cache_persistence {Ret : Type} (env : EvalEnv Ret) (gl ql : Loader)
    (device : Nat) (use_gt use_cbgm : Bool) (dir : String) (evs : List EEv)
    (r : Ret)
    (h : evaluate_performance env gl ql device use_gt false use_cbgm dir =
      (evs, .ok r)) :
    (EEv.save (pathJoin (pathJoin dir "eval_cache") "eval_cache.pth") cacheKeys ∈ evs
      ∧ (∀ p ks, EEv.save p ks ∈ evs →
          p = pathJoin (pathJoin dir "eval_cache") "eval_cache.pth" ∧ ks = cacheKeys)
      ∧ (∀ p, EEv.load p ∉ evs))
    ∧ evaluate_performance env gl ql device use_gt true use_cbgm dir =
        ([EEv.load (pathJoin dir "eval_cache/eval_cache.pth")]
          ++ (if use_gt then [] else [EEv.evalDet (1 / 100) dir])
          ++ [EEv.evalSearch gl.dataset.name],
         .ok (if gl.dataset.name = "CUHK-SYSU" then
                env.eval_search_cuhk (searchArgsOf gl ql use_cbgm dir
                  (env.loadCache (pathJoin dir "eval_cache/eval_cache.pth")))
              else env.eval_search_prw (searchArgsOf gl ql use_cbgm dir
                  (env.loadCache (pathJoin dir "eval_cache/eval_cache.pth"))))) := by
  refine ⟨?_, evaluate_cache_eq env gl ql device use_gt use_cbgm dir⟩
  obtain ⟨L, hLinf, hok, herr⟩ := computeFeats_spec env device use_gt gl ql dir
  rcases hc : computeFeats env device use_gt gl ql dir with ⟨cevs, cr⟩
  cases cr with
  | error e =>
    rw [evaluate_compute_err env gl ql device use_gt use_cbgm dir cevs e hc] at h
    exact absurd (congrArg Prod.snd h) (by simp)
  | ok c =>
    rw [evaluate_compute_ok env gl ql device use_gt use_cbgm dir cevs c hc] at h
    have hevs := congrArg Prod.fst h
    simp only at hevs
    have hcevs : cevs = L ++ [EEv.makeDir (pathJoin dir "eval_cache"),
        EEv.save (pathJoin (pathJoin dir "eval_cache") "eval_cache.pth") cacheKeys] := by
      have h2 := hok ⟨c, by rw [hc]⟩
      rw [hc] at h2
      exact h2
    subst hevs
    refine ⟨?_, ?_, ?_⟩
    · simp [hcevs, List.mem_append]
    · intro p ks hmem
      rw [hcevs] at hmem
      simp only [List.mem_append, List.mem_cons, List.not_mem_nil, or_false]
        at hmem
      have hmem' : EEv.save p ks ∈ L
          ∨ EEv.save p ks = EEv.makeDir (pathJoin dir "eval_cache")
          ∨ EEv.save p ks =
              EEv.save (pathJoin (pathJoin dir "eval_cache") "eval_cache.pth")
                cacheKeys
          ∨ EEv.save p ks ∈
              (if use_gt then ([] : List EEv) else [EEv.evalDet (1 / 100) dir])
          ∨ EEv.save p ks = EEv.evalSearch gl.dataset.name := by tauto
      rcases hmem' with h1 | h1 | h1 | h1 | h1
      · exact absurd (hLinf _ h1) (by simp [isInfer])
      · simp at h1
      · injection h1 with hp hks
        exact ⟨hp, hks⟩
      · cases use_gt <;> simp at h1
      · simp at h1
    · intro p hp
      rw [hcevs] at hp
      simp only [List.mem_append, List.mem_cons, List.not_mem_nil, or_false]
        at hp
      have hp' : EEv.load p ∈ L
          ∨ EEv.load p = EEv.makeDir (pathJoin dir "eval_cache")
          ∨ EEv.load p =
              EEv.save (pathJoin (pathJoin dir "eval_cache") "eval_cache.pth")
                cacheKeys
          ∨ EEv.load p ∈
              (if use_gt then ([] : List EEv) else [EEv.evalDet (1 / 100) dir])
          ∨ EEv.load p = EEv.evalSearch gl.dataset.name := by tauto
      rcases hp' with h1 | h1 | h1 | h1 | h1
      · exact absurd (hLinf _ h1) (by simp [isInfer])
      · simp at h1
      · simp at h1
      · cases use_gt <;> simp at h1
      · simp at h1

/-- Witness for C3 at a concrete environment with empty loaders. -/
theorem C3_witness :
    EEv.save (pathJoin (pathJoin "out" "eval_cache") "eval_cache.pth") cacheKeys ∈
      [EEv.makeDir (pathJoin "out" "eval_cache"),
       EEv.save (pathJoin (pathJoin "out" "eval_cache") "eval_cache.pth") cacheKeys,
       EEv.evalDet (1 / 100) "out", EEv.evalSearch "CUHK-SYSU"] := by
  have h := C3_cache_persistence envEval glEmpty qlEmpty 0 false false "out"
    [EEv.makeDir (pathJoin "out" "eval_cache"),
     EEv.save (pathJoin (pathJoin "out" "eval_cache") "eval_cache.pth") cacheKeys,
     EEv.evalDet (1 / 100) "out", EEv.evalSearch "CUHK-SYSU"] 1 rfl
  exact h.1.1

/-- C4: `eval_detection` (threshold `0.01`) is invoked if and only if
`use_gt` is false, and the value `evaluate_performance` returns is the
result of `eval_search_cuhk` when the gallery dataset is named
`"CUHK-SYSU"` and of `eval_search_prw` otherwise. -/
theorem C4_eval_dispatch {Ret : Type} (env : EvalEnv Ret) (gl ql : Loader)
    (device : Nat) (use_gt use_cache use_cbgm : Bool) (dir : String)
    (evs : List EEv) (r : Ret)
    (h : evaluate_performance env gl ql device use_gt use_cache use_cbgm dir =
      (evs, .ok r)) :
    ((EEv.evalDet (1 / 100) dir ∈ evs) ↔ use_gt = false)
    ∧ ∃ c : EvalCache,
        r = if gl.dataset.name = "CUHK-SYSU" then
              env.eval_search_cuhk (searchArgsOf gl ql use_cbgm dir c)
            else env.eval_search_prw (searchArgsOf gl ql use_cbgm dir c) := by
  cases use_cache with
  | true =>
    rw [evaluate_cache_eq env gl ql device use_gt use_cbgm dir] at h
    have hevs := congrArg Prod.fst h
    have hr := congrArg Prod.snd h
    simp only at hevs hr
    subst hevs
    refine ⟨?_, env.loadCache (pathJoin dir "eval_cache/eval_cache.pth"), ?_⟩
    · cases use_gt <;> simp
    · exact (Except.ok.injEq .. |>.mp hr).symm
  | false =>
    obtain ⟨L, hLinf, hok, herr⟩ := computeFeats_spec env device use_gt gl ql dir
    rcases hc : computeFeats env device use_gt gl ql dir with ⟨cevs, cr⟩
    cases cr with
    | error e =>
      rw [evaluate_compute_err env gl ql device use_gt use_cbgm dir cevs e hc] at h
      exact absurd (congrArg Prod.snd h) (by simp)
    | ok c =>
      rw [evaluate_compute_ok env gl ql device use_gt use_cbgm dir cevs c hc] at h
      have hevs := congrArg Prod.fst h
      have hr := congrArg Prod.snd h
      simp only at hevs hr
      subst hevs
      have hcevs : cevs = L ++ [EEv.makeDir (pathJoin dir "eval_cache"),
          EEv.save (pathJoin (pathJoin dir "eval_cache") "eval_cache.pth") cacheKeys] := by
        have h2 := hok ⟨c, by rw [hc]⟩
        rw [hc] at h2
        exact h2
      refine ⟨?_, c, (Except.ok.injEq .. |>.mp hr).symm⟩
      cases use_gt with
      | false => simp
      | true =>
        rw [hcevs]
        constructor
        · intro hmem
          simp only [List.mem_append, List.mem_cons, List.not_mem_nil,
            or_false] at hmem
          have hmem' : EEv.evalDet (1 / 100) dir ∈ L
              ∨ EEv.evalDet (1 / 100) dir = EEv.makeDir (pathJoin dir "eval_cache")
              ∨ EEv.evalDet (1 / 100) dir =
                  EEv.save (pathJoin (pathJoin dir "eval_cache") "eval_cache.pth")
                    cacheKeys
              ∨ EEv.evalDet (1 / 100) dir ∈
                  (if (true : Bool) then ([] : List EEv)
                   else [EEv.evalDet (1 / 100) dir])
              ∨ EEv.evalDet (1 / 100) dir = EEv.evalSearch gl.dataset.name := by
            tauto
          rcases hmem' with h1 | h1 | h1 | h1 | h1
          · exact absurd (hLinf _ h1) (by simp [isInfer])
          · simp at h1
          · simp at h1
          · simp at h1
          · simp at h1
        · intro h1
          cases h1

/-- Witness for C4 at a concrete environment with empty loaders. -/
theorem C4_witness :
    EEv.evalDet (1 / 100) "out" ∈
      [EEv.makeDir (pathJoin "out" "eval_cache"),
       EEv.save (pathJoin (pathJoin "out" "eval_cache") "eval_cache.pth") cacheKeys,
       EEv.evalDet (1 / 100) "out", EEv.evalSearch "CUHK-SYSU"] := by
  have h := C4_eval_dispatch envEval glEmpty qlEmpty 0 false false false "out"
    [EEv.makeDir (pathJoin "out" "eval_cache"),
     EEv.save (pathJoin (pathJoin "out" "eval_cache") "eval_cache.pth") cacheKeys,
     EEv.evalDet (1 / 100) "out", EEv.evalSearch "CUHK-SYSU"] 1 rfl
  exact h.1.mpr rfl

/-- C8: a query batch whose first detected box differs from the
ground-truth box by a summed difference above `0.001` raises the
consistency assertion; a query-box batch whose embedding list does not have
exactly one element raises the batch-size assertion; and whenever the
feature-computing evaluation path raises, its trace contains no directory
creation, no cache save, and no call to a scoring function. -/
theorem C8_eval_assertions (Ret : Type) :
    (∀ (env : EvalEnv Ret) (images : List Tens) (targets : List Target)
       (boxes : Tens) (o0 : DetOut) (rest : List DetOut) (b0 : TData),
       getBoxes targets = .ok boxes →
       env.modelQuery images targets = o0 :: rest →
       o0.boxes.dat.row0 = some b0 →
       ¬ ((boxes.dat.squeeze.sub b0).total ≤ 1 / 1000) →
       queryBatch env images targets = ([.inferQuery], .error .assertGtBox))
    ∧ (∀ (env : EvalEnv Ret) (images : List Tens) (targets : List Target),
       (env.modelEmb images targets).length ≠ 1 →
       boxFeatBatch env images targets = ([.inferBoxEmb], .error .assertBatchSize))
    ∧ (∀ (env : EvalEnv Ret) (gl ql : Loader) (device : Nat)
       (use_gt use_cbgm : Bool) (dir : String) (evs : List EEv) (e : EErr),
       evaluate_performance env gl ql device use_gt false use_cbgm dir =
         (evs, .error e) →
       (∀ p ks, EEv.save p ks ∉ evs) ∧ (∀ p, EEv.makeDir p ∉ evs)
       ∧ (∀ q d, EEv.evalDet q d ∉ evs) ∧ (∀ n, EEv.evalSearch n ∉ evs)) := by
  refine ⟨?_, ?_, ?_⟩
  · intro env images targets boxes o0 rest b0 hb hm hr hlt
    simp only [queryBatch, hb, hm, hr]
    rw [if_neg hlt]
  · intro env images targets hlen
    rcases hm : env.modelEmb images targets with _ | ⟨e, _ | ⟨e2, rest⟩⟩
    · simp [boxFeatBatch, hm]
    · rw [hm] at hlen
      simp at hlen
    · simp [boxFeatBatch, hm]
  · intro env gl ql device use_gt use_cbgm dir evs e h
    obtain ⟨L, hLinf, hok, herr⟩ := computeFeats_spec env device use_gt gl ql dir
    rcases hc : computeFeats env device use_gt gl ql dir with ⟨cevs, cr⟩
    cases cr with
    | ok c =>
      rw [evaluate_compute_ok env gl ql device use_gt use_cbgm dir cevs c hc] at h
      exact absurd (congrArg Prod.snd h) (by simp)
    | error e2 =>
      rw [evaluate_compute_err env gl ql device use_gt use_cbgm dir cevs e2 hc] at h
      have hevs := congrArg Prod.fst h
      simp only at hevs
      subst hevs
      have hL : cevs = L := by
        have h2 := herr ⟨e2, by rw [hc]⟩
        rw [hc] at h2
        exact h2
      subst hL
      refine ⟨?_, ?_, ?_, ?_⟩
      · intro p ks hmem
        exact absurd (hLinf _ hmem) (by simp [isInfer])
      · intro p hmem
        exact absurd (hLinf _ hmem) (by simp [isInfer])
      · intro q d hmem
        exact absurd (hLinf _ hmem) (by simp [isInfer])
      · intro n hmem
        exact absurd (hLinf _ hmem) (by simp [isInfer])

/-- Witness for C8: both assertions fail at concrete environments. -/
theorem C8_witness :
    queryBatch envQB [img0] [tgt0] = ([.inferQuery], .error .assertGtBox)
    ∧ boxFeatBatch envEval [img0] [tgt0] =
        ([.inferBoxEmb], .error .assertBatchSize) := by
  have h := C8_eval_assertions Nat
  refine ⟨h.1 envQB [img0] [tgt0] tBox qbOut [] (.d1 [-1, -1, -1, -1])
      rfl rfl rfl ?_, h.2.1 envEval [img0] [tgt0] (by simp [envEval])⟩
  norm_num [tBox, TData.squeeze, TData.sub, TData.total]

/-- C10: with `use_gt` true, the synthesized gallery output is a single
dictionary whose boxes are the first target's ground-truth boxes, whose
embeddings are the concatenation of the model's embeddings, and whose
labels and scores are all-ones vectors of length equal to the number of
ground-truth boxes, resident on the compute device. -/
theorem C10_gt_synthesized_output {Ret : Type} (env : EvalEnv Ret)
    (device : Nat) (images : List Tens) (targets : List Target) (boxes : Tens)
    (hb : getBoxes targets = .ok boxes) :
    outputsOfGallery env device true images targets =
      ([.inferGtEmb], .ok
        [{ boxes := boxes
           embeddings := ⟨.d2 ((env.modelEmb images targets).flatMap
               (fun t => t.dat.rows)),
             ((env.modelEmb images targets).headD ⟨.d2 [], 0⟩).dev⟩
           labels := ⟨.d1 (List.replicate boxes.dat.size0 1), device⟩
           scores := ⟨.d1 (List.replicate boxes.dat.size0 1), device⟩ }]) := by
  simp only [outputsOfGallery, hb]
  rfl

/-- Witness for C10 at a concrete environment and target. -/
theorem C10_witness :
    outputsOfGallery envEval 2 true [img0] [tgt0] =
      ([.inferGtEmb], .ok
        [{ boxes := tBox
           embeddings := ⟨.d2 ((envEval.modelEmb [img0] [tgt0]).flatMap
               (fun t => t.dat.rows)),
             ((envEval.modelEmb [img0] [tgt0]).headD ⟨.d2 [], 0⟩).dev⟩
           labels := ⟨.d1 (List.replicate tBox.dat.size0 1), 2⟩
           scores := ⟨.d1 (List.replicate tBox.dat.size0 1), 2⟩ }]) :=
  C10_gt_synthesized_output envEval 2 [img0] [tgt0] tBox rfl

end OIMNet
